import Mathlib

/-!
Verification development for the PostgreSQL binary COPY GPU parser
(`test_postgres_binary_cuda_parser_numba_optimized.py`).

Shallow embedding of:
- the column layout resolver (`get_column_type`, `get_column_length`, and the
  per-column resolution loop of `_initialize_device_buffers`);
- the tuple segmenter (`parse_binary_chunk`);
- the decode kernel (`decode_all_columns_kernel` with helpers `check_bounds`,
  `decode_int32`, `bulk_copy_64bytes`);
- the host-side result collection loop of `process_table`;
- the bounded retry loop of `_read_and_parse_chunk`;
- the chunk-size computation of `process_table`.

Conventions: byte windows are `List ℕ` (one entry per byte, values < 256 on
real inputs); numpy `int32`/`int16` casts are explicit wrap-arounds on
`ℕ`/`ℤ`; device buffers are functions updated pointwise (the source never
bounds-checks device writes, so buffers are modelled as total maps); the
parallel CUDA grid is modelled as a sequential fold over rows — every worker
of the source kernel writes a disjoint set of cells and, for the chunk sizes
the driver uses (at most 4096 rows against at least 32768 launched threads),
each thread's grid-stride loop touches exactly one row, so the fold computes
the same buffer contents as the parallel launch.
-/

/-- Python bitwise NOT on an arbitrary-precision integer: `~x = -x - 1`. -/
def py_not (x : ℤ) : ℤ := -x - 1

/-- Python `x & 0xFFFFFFFF` on an arbitrary-precision integer: masking with
the 32-bit all-ones pattern keeps the low 32 two's-complement bits, i.e.
reduction mod `2 ^ 32` with a nonnegative result, exactly Python's `&`. -/
def py_and32 (x : ℤ) : ℤ := x % 4294967296

/-- Embedding of a `np.int16` cast of a nonnegative value: wrap mod `2 ^ 16`,
top bit set means negative. -/
def to_int16 (v : ℕ) : ℤ :=
  if v % 65536 < 32768 then (v % 65536 : ℤ) else (v % 65536 : ℤ) - 65536

/-- Embedding of a `np.int32` cast of a nonnegative value: wrap mod `2 ^ 32`,
top bit set means negative. -/
def to_int32 (v : ℕ) : ℤ :=
  if v % 4294967296 < 2147483648 then (v % 4294967296 : ℤ)
  else (v % 4294967296 : ℤ) - 4294967296

/-- Read one byte of a window at a signed position. The source indexes numpy
arrays without bounds checks; every read exercised by the claims is in range,
and an out-of-range or negative position is modelled as 0. -/
def byte_at (data : List ℕ) (pos : ℤ) : ℕ :=
  if 0 ≤ pos then data.getD pos.toNat 0 else 0

/-- Python-style string prefix test on character lists. -/
def list_starts_with : List Char → List Char → Bool
  | _, [] => true
  | [], _ :: _ => false
  | c :: cs, d :: ds => c == d && list_starts_with cs ds

/-- Embedding of Python `s.startswith(p)` (used because the source matches
type names by prefix). -/
def str_starts_with (s p : String) : Bool := list_starts_with s.data p.data

/-! ## Column layout resolver -/

/-- Column metadata as fetched from the catalog (`ColumnInfo` dataclass):
name, source type name, optional declared character length. -/
structure ColumnInfo where
  name : String
  type : String
  length : Option ℕ

/-- Embedding of `get_column_type`: integer ↦ 0, numeric/decimal ↦ 1, a name
starting with `character` or `text` ↦ 2, anything else raises. -/
def get_column_type (typeName : String) : Except String ℤ :=
  if typeName = "integer" then .ok 0
  else if typeName = "numeric" ∨ typeName = "decimal" then .ok 1
  else if str_starts_with typeName "character" = true ∨ str_starts_with typeName "text" = true then
    .ok 2
  else .error ("Unsupported column type: " ++ typeName)

/-- Embedding of `get_column_length`: integer ↦ 4, numeric/decimal ↦ 8, a name
starting with `character` ↦ declared length (Python truthiness: `None` and `0`
both fall back to 256), exactly `text` ↦ 1024, anything else raises. -/
def get_column_length (typeName : String) (length : Option ℕ) : Except String ℤ :=
  if typeName = "integer" then .ok 4
  else if typeName = "numeric" ∨ typeName = "decimal" then .ok 8
  else if str_starts_with typeName "character" = true then
    .ok (match length with
          | some n => if n ≠ 0 then (n : ℤ) else 256
          | none => 256)
  else if typeName = "text" then .ok 1024
  else .error ("Unsupported column type: " ++ typeName)

/-- Per-column body of the layout loop in `_initialize_device_buffers`:
resolve one column to its (decode-type tag, byte width) pair. -/
def resolve_column (c : ColumnInfo) : Except String (ℤ × ℤ) := do
  let t ← get_column_type c.type
  let w ← get_column_length c.type c.length
  pure (t, w)

/-- Layout loop of `_initialize_device_buffers`: resolve every column in
order, propagating the first unsupported-type error. -/
def build_layout (cols : List ColumnInfo) : Except String (List (ℤ × ℤ)) :=
  cols.mapM resolve_column

/-! ## Tuple segmenter (`parse_binary_chunk`) -/

/-- The fixed 11-byte PGCOPY stream signature
(`PGCOPY\n\xff\r\n\x00`, line 250 of the source). -/
def pgcopy_signature : List ℕ := [80, 71, 67, 79, 80, 89, 10, 255, 13, 10, 0]

/-- Big-endian 32-bit value assembly shared by the segmenter's field-length
read and the kernel's `decode_int32`:
`((b0 & 0xFF) << 24) | ((b1 & 0xFF) << 16) | ((b2 & 0xFF) << 8) | (b3 & 0xFF)`. -/
def be32_val (b0 b1 b2 b3 : ℕ) : ℕ :=
  ((b0 &&& 0xFF) <<< 24) ||| ((b1 &&& 0xFF) <<< 16) ||| ((b2 &&& 0xFF) <<< 8) ||| (b3 &&& 0xFF)

/-- The segmenter's signed interpretation of a 4-byte big-endian field length
(lines 277–287): when the top bit is set, `field_len = -((~field_len + 1) & 0xFFFFFFFF)`. -/
def segmenter_field_length (b0 b1 b2 b3 : ℕ) : ℤ :=
  let val := be32_val b0 b1 b2 b3
  if val &&& 0x80000000 ≠ 0 then -(py_and32 (py_not (val : ℤ) + 1)) else (val : ℤ)

/-- Result of the per-tuple field loop: accumulated spans, the updated window
position, and whether the loop hit the mid-data truncation `return`. -/
structure FieldsResult where
  offsets : List ℤ
  lengths : List ℤ
  pos : ℤ
  aborted : Bool

/-- Inner field loop of `parse_binary_chunk` (lines 272–300): for each of the
tuple's declared fields, read a 4-byte length; a length of −1 records a NULL
span `(0, −1)`; a non-negative length that runs past the window ends parsing
with the accumulated spans (the source's early `return`); `pos + 4 > len`
breaks back to the tuple loop. -/
def parse_fields (chunk : List ℕ) : ℕ → ℤ → List ℤ → List ℤ → FieldsResult
  | 0, pos, offs, lens => ⟨offs, lens, pos, false⟩
  | n + 1, pos, offs, lens =>
    if (chunk.length : ℤ) < pos + 4 then ⟨offs, lens, pos, false⟩
    else
      let fieldLen := segmenter_field_length (byte_at chunk pos) (byte_at chunk (pos + 1))
        (byte_at chunk (pos + 2)) (byte_at chunk (pos + 3))
      let pos2 := pos + 4
      if fieldLen = -1 then parse_fields chunk n pos2 (offs ++ [0]) (lens ++ [-1])
      else if (chunk.length : ℤ) < pos2 + fieldLen then ⟨offs, lens, pos2, true⟩
      else parse_fields chunk n (pos2 + fieldLen) (offs ++ [pos2]) (lens ++ [fieldLen])

/-- Outer tuple loop of `parse_binary_chunk` (lines 263–301): while two bytes
remain, read a big-endian 16-bit field count; −1 is the stream trailer. The
fuel argument dominates the iteration count (each iteration that continues
advances `pos` by at least 2, so `chunk.length + 1` iterations suffice from
any nonnegative start position). -/
def parse_tuples (chunk : List ℕ) : ℕ → ℤ → List ℤ → List ℤ → List ℤ × List ℤ
  | 0, _, offs, lens => (offs, lens)
  | fuel + 1, pos, offs, lens =>
    if pos + 2 ≤ (chunk.length : ℤ) then
      let nf := to_int16 ((byte_at chunk pos <<< 8) ||| byte_at chunk (pos + 1))
      if nf = -1 then (offs, lens)
      else
        let r := parse_fields chunk nf.toNat (pos + 2) offs lens
        if r.aborted then (r.offsets, r.lengths)
        else parse_tuples chunk fuel r.pos r.offsets r.lengths
    else (offs, lens)

/-- Embedding of `parse_binary_chunk` (lines 242–302). Header handling: only
when a header is expected, the window is at least 11 bytes long and begins
with the PGCOPY signature does the start position move past the signature;
with at least 8 further bytes the 4-byte flags word (read but unused in the
source) and the 4-byte header-extension length are consumed and the extension
skipped. Returns the flat `(field_offsets, field_lengths)` span arrays. -/
def parse_binary_chunk (chunk : List ℕ) (headerExpected : Bool) : List ℤ × List ℤ :=
  let startPos : ℤ :=
    if headerExpected = true ∧ 11 ≤ chunk.length then
      if chunk.take 11 = pgcopy_signature then
        if 19 ≤ chunk.length then
          let extLen := to_int32 ((byte_at chunk 15 <<< 24) ||| (byte_at chunk 16 <<< 16) |||
            (byte_at chunk 17 <<< 8) ||| byte_at chunk 18)
          19 + extLen
        else 11
      else 0
    else 0
  parse_tuples chunk (chunk.length + 1) startPos [] []

/-! ## Decode kernel -/

/-- Embedding of the device helper `check_bounds` (lines 111–114). -/
def check_bounds (data : List ℕ) (pos size : ℤ) : Bool :=
  decide (0 ≤ pos) && decide (pos + size ≤ (data.length : ℤ))

/-- Embedding of the device helper `decode_int32` (lines 117–135): returns 0
when out of bounds; otherwise assembles the big-endian value and, when the
top bit is set, returns `-(val & 0x7FFFFFFF)` (the source's sign handling,
which is not a two's-complement conversion). -/
def decode_int32 (data : List ℕ) (pos : ℤ) : ℤ :=
  if check_bounds data pos 4 = true then
    let val := be32_val (byte_at data pos) (byte_at data (pos + 1))
      (byte_at data (pos + 2)) (byte_at data (pos + 3))
    if val &&& 0x80000000 ≠ 0 then -((val &&& 0x7FFFFFFF : ℕ) : ℤ) else (val : ℤ)
  else 0

/-- The 8-byte packed move inside `bulk_copy_64bytes` (lines 146–153): eight
source bytes are folded into one 64-bit value and written back byte by byte. -/
def copy_packed8 (src : ℤ → ℕ) (srcPos : ℤ) (dst : ℤ → ℕ) (dstPos : ℤ) : ℤ → ℕ :=
  let val := (List.range 8).foldl (fun v (j : ℕ) => (v <<< 8) ||| src (srcPos + (j : ℤ))) 0
  (List.range 8).foldl
    (fun d (j : ℕ) => Function.update d (dstPos + (j : ℤ)) ((val >>> ((7 - j) * 8)) &&& 0xFF)) dst

/-- The byte-by-byte tail copy inside `bulk_copy_64bytes` (lines 155–157). -/
def copy_single (src : ℤ → ℕ) (srcPos : ℤ) (dst : ℤ → ℕ) (dstPos : ℤ) (count : ℕ) : ℤ → ℕ :=
  (List.range count).foldl
    (fun d (j : ℕ) => Function.update d (dstPos + (j : ℤ)) (src (srcPos + (j : ℤ)))) dst

/-- Embedding of the device helper `bulk_copy_64bytes` (lines 137–157): the
size is clamped to 64, then moved in 8-byte groups, with a byte-by-byte tail
for the last partial group. -/
def bulk_copy_64bytes (src : ℤ → ℕ) (srcPos : ℤ) (dst : ℤ → ℕ) (dstPos : ℤ) (size0 : ℤ) : ℤ → ℕ :=
  let size := if 64 < size0 then 64 else size0
  (List.range ((size.toNat + 7) / 8)).foldl
    (fun d k =>
      let i : ℤ := 8 * (k : ℤ)
      if i + 8 ≤ size then copy_packed8 src (srcPos + i) d (dstPos + i)
      else copy_single src (srcPos + i) d (dstPos + i) (size - i).toNat)
    dst

/-- The null-byte scan of the kernel's text branch (lines 219–222): index of
the first zero byte in the copied range, or the full length. -/
def find_zero_end (buf : ℤ → ℕ) (dstPos : ℤ) (n : ℕ) : ℕ :=
  match (List.range n).find? (fun (i : ℕ) => buf (dstPos + (i : ℤ)) == 0) with
  | some i => i
  | none => n

/-- Leading-whitespace trim of the kernel's text branch (lines 225–226),
with fuel `ve - vs` bounding the loop. -/
def trim_start_aux (buf : ℤ → ℕ) (dstPos : ℤ) : ℕ → ℕ → ℕ → ℕ
  | 0, vs, _ => vs
  | f + 1, vs, ve =>
    if vs < ve ∧ buf (dstPos + (vs : ℤ)) ≤ 32 then trim_start_aux buf dstPos f (vs + 1) ve
    else vs

/-- The `while valid_start < valid_end and buf[...] <= 32` loop. -/
def trim_start (buf : ℤ → ℕ) (dstPos : ℤ) (vs ve : ℕ) : ℕ :=
  trim_start_aux buf dstPos (ve - vs) vs ve

/-- Trailing-whitespace trim of the kernel's text branch (lines 228–229). -/
def trim_end_aux (buf : ℤ → ℕ) (dstPos : ℤ) : ℕ → ℕ → ℕ → ℕ
  | 0, _, ve => ve
  | f + 1, vs, ve =>
    if vs < ve ∧ buf (dstPos + (ve : ℤ) - 1) ≤ 32 then trim_end_aux buf dstPos f vs (ve - 1)
    else ve

/-- The `while valid_end > valid_start and buf[... - 1] <= 32` loop. -/
def trim_end (buf : ℤ → ℕ) (dstPos : ℤ) (vs ve : ℕ) : ℕ :=
  trim_end_aux buf dstPos (ve - vs) vs ve

/-- The device buffer set: numeric output array, string byte arena, and the
packed string-range index (`str_null_pos`), all zero-initialized by
`_initialize_device_buffers`. -/
structure KBuffers where
  intOut : ℕ → ℤ
  strOut : ℤ → ℕ
  strNull : ℕ → ℤ

/-- The all-zero initial buffer state (`np.zeros` allocations). -/
def zero_buffers : KBuffers := ⟨fun _ => 0, fun _ => 0, fun _ => 0⟩

/-- Body of `decode_all_columns_kernel` for one `(row, col)` cell
(lines 177–236). Numeric columns (`col_types[col] <= 1`): NULL writes 0,
otherwise `decode_int32` of the span's bytes, into
`int_outputs[col * chunk_size + row]`. Text columns: NULL writes 0 into the
string-range index; otherwise `min(length, max_length)` bytes are bulk-copied
into the arena at `(col * chunk_size + row) * max_length`, the range is
null-terminated and whitespace-trimmed, and `start << 16 | end` (or 0 when
empty) is stored in the string-range index. -/
def decode_cell (raw : List ℕ) (offs lens types widths : List ℤ)
    (chunkSize numCols row col : ℕ) (b : KBuffers) : KBuffers :=
  let fieldIdx := row * numCols + col
  let pos := offs.getD fieldIdx 0
  let length := lens.getD fieldIdx 0
  if types.getD col 0 ≤ 1 then
    if length = -1 then
      { b with intOut := Function.update b.intOut (col * chunkSize + row) 0 }
    else
      { b with intOut := Function.update b.intOut (col * chunkSize + row) (decode_int32 raw pos) }
  else
    let maxLength := widths.getD col 0
    let dstPos : ℤ := ((col * chunkSize + row : ℕ) : ℤ) * maxLength
    if length = -1 then
      { b with strNull := Function.update b.strNull (col * chunkSize + row) 0 }
    else
      let validLength := min length maxLength
      let copied := (List.range ((validLength.toNat + 63) / 64)).foldl
        (fun d k =>
          let i : ℤ := 64 * (k : ℤ)
          let copySize := min 64 (validLength - i)
          bulk_copy_64bytes (byte_at raw) (pos + i) d (dstPos + i) copySize)
        b.strOut
      let validEnd0 := find_zero_end copied dstPos validLength.toNat
      let vs := trim_start copied dstPos 0 validEnd0
      let ve := trim_end copied dstPos vs validEnd0
      let nullVal : ℤ := if vs < ve then (((vs <<< 16) ||| ve : ℕ) : ℤ) else 0
      { b with strOut := copied,
               strNull := Function.update b.strNull (col * chunkSize + row) nullVal }

/-- One row worker of the kernel: iterate the column loop, stopping the row
when `field_idx >= len(field_offsets)` (the source's early `return`). The
first fuel argument is the number of columns still to process. -/
def decode_row_go (raw : List ℕ) (offs lens types widths : List ℤ)
    (chunkSize numCols row : ℕ) : ℕ → ℕ → KBuffers → KBuffers
  | 0, _, b => b
  | n + 1, col, b =>
    if offs.length ≤ row * numCols + col then b
    else decode_row_go raw offs lens types widths chunkSize numCols row n (col + 1)
      (decode_cell raw offs lens types widths chunkSize numCols row col b)

/-- Embedding of `decode_all_columns_kernel` (lines 159–239): every row's
worker runs over all columns; workers write disjoint cells, so the sequential
fold over rows computes the contents the parallel grid produces. -/
def decode_all_columns_kernel (raw : List ℕ) (offs lens types widths : List ℤ)
    (chunkSize numCols : ℕ) (b : KBuffers) : KBuffers :=
  (List.range chunkSize).foldl
    (fun bb row => decode_row_go raw offs lens types widths chunkSize numCols row numCols 0 bb) b

/-! ## Host-side result collection (`process_table`, lines 539–600) -/

/-- The host filter keeping only printable ASCII bytes (lines 583–586). -/
def py_printable_filter (l : List ℕ) : List ℕ :=
  l.filter (fun bb => decide (32 ≤ bb) && decide (bb ≤ 126))

/-- Python `str.strip()` on a printable-ASCII byte list: the only whitespace
byte surviving the printable filter is the space (32), so stripping removes
leading and trailing spaces. -/
def py_strip (l : List ℕ) : List ℕ :=
  ((l.dropWhile (· == 32)).reverse.dropWhile (· == 32)).reverse

/-- Host-side decode of one text cell (lines 568–598): read the packed range
from the string-range index at *string-column* position `strColIdx` (the host
loop counts only string columns), slice the arena row, keep printable ASCII,
decode (printable ASCII is one UTF-8 character per byte) and strip; every
failing branch yields the empty string. -/
def host_decode_string (b : KBuffers) (width : ℤ) (strColIdx rows r : ℕ) : String :=
  let endPosI := b.strNull (strColIdx * rows + r)
  if endPosI = 0 then ""
  else if 0 < endPosI then
    let ep := endPosI.toNat
    let startPos := (ep >>> 16) &&& 0xFFFF
    let e := ep &&& 0xFFFF
    if startPos < e then
      let rowData := (List.range (e - startPos)).map
        (fun k => b.strOut (((strColIdx * rows + r : ℕ) : ℤ) * width + ((startPos + k : ℕ) : ℤ)))
      let valid := py_printable_filter rowData
      if valid ≠ [] then
        let s := py_strip valid
        if s ≠ [] then String.mk (s.map Char.ofNat) else ""
      else ""
    else ""
  else ""

/-- One decoded output column: a numeric array or a list of strings. -/
abbrev ColumnResult := List ℤ ⊕ List String

/-- The result-collection loop of `process_table` (lines 540–600): walk the
columns in declared order, maintaining separate numeric and string column
counters (`int_col_idx`, `str_col_idx`), and slice the device buffers by
those per-kind counters. The per-column `(tag, width)` pairs are the values
`get_column_type`/`get_column_length` recompute inside the loop, which equal
the layout computed once by `build_layout`. -/
def collect_columns (b : KBuffers) (rows : ℕ) : List (ℤ × ℤ) → ℕ → ℕ → List ColumnResult
  | [], _, _ => []
  | (t, w) :: rest, intIdx, strIdx =>
    if t ≤ 1 then
      Sum.inl ((List.range rows).map fun r => b.intOut (intIdx * rows + r)) ::
        collect_columns b rows rest (intIdx + 1) strIdx
    else
      Sum.inr ((List.range rows).map fun r => host_decode_string b w strIdx rows r) ::
        collect_columns b rows rest intIdx (strIdx + 1)

/-- One chunk of the `process_table` pipeline: segment the window, compute
`rows_in_chunk = len(field_offsets) // len(columns)` capped by the
rows-per-chunk ceiling, truncate the span arrays, run the kernel over
zero-initialized buffers, and collect per-column host results. Returns
`none` when no spans were produced (the source skips the chunk). -/
def process_one_chunk (cols : List ColumnInfo) (window : List ℕ)
    (headerExpected : Bool) (rowsPerChunk : ℕ) :
    Except String (Option (ℕ × List ColumnResult)) := do
  let layout ← build_layout cols
  let parsed := parse_binary_chunk window headerExpected
  if parsed.1.isEmpty then return none
  else
    let numCols := cols.length
    let rows := min (parsed.1.length / numCols) rowsPerChunk
    let offs := parsed.1.take (rows * numCols)
    let lens := parsed.2.take (rows * numCols)
    let types := layout.map Prod.fst
    let widths := layout.map Prod.snd
    let b := decode_all_columns_kernel window offs lens types widths rows numCols zero_buffers
    return some (rows, collect_columns b rows layout 0 0)

/-! ## Chunk orchestrator (`_read_and_parse_chunk`, lines 373–447) -/

/-- Result of the bounded retry loop: the spans of the last segmentation run,
the window as grown by concatenated read blocks, and how many segmentation
runs were performed. -/
structure RetryResult where
  offsets : List ℤ
  lengths : List ℤ
  window : List ℕ
  parses : ℕ

/-- The `while attempts < max_attempts` loop of `_read_and_parse_chunk`
(lines 394–419): segment the window; succeed when spans were produced and the
last field ends inside the window; otherwise concatenate the next upstream
read block (no block left ends the loop) and retry with `header_expected`
false. When the attempt budget runs out (`parses = 0` from the recursive
call, i.e. the guard failed before another segmentation), the loop exits
holding the previous segmentation's spans and the grown window. -/
def retry_loop : ℕ → List ℕ → List (List ℕ) → Bool → RetryResult
  | 0, arr, _, _ => ⟨[], [], arr, 0⟩
  | fuel + 1, arr, blocks, hdr =>
    let parsed := parse_binary_chunk arr hdr
    let lastEnd : ℤ := parsed.1.getLastD 0 + max 0 (parsed.2.getLastD 0)
    if ¬ parsed.1.isEmpty ∧ lastEnd ≤ (arr.length : ℤ) then ⟨parsed.1, parsed.2, arr, 1⟩
    else
      match blocks with
      | [] => ⟨parsed.1, parsed.2, arr, 1⟩
      | blk :: rest =>
        let r := retry_loop fuel (arr ++ blk) rest false
        if r.parses = 0 then ⟨parsed.1, parsed.2, arr ++ blk, 1⟩
        else ⟨r.offsets, r.lengths, r.window, r.parses + 1⟩

/-- Embedding of `_read_and_parse_chunk`: run the retry loop with the
source's `max_attempts = 3` budget, give up with `none` when no spans were
produced, otherwise cap and truncate to whole rows. The second component
counts segmentation runs. -/
def read_and_parse_chunk (initial : List ℕ) (blocks : List (List ℕ)) (hdr : Bool)
    (numCols rowsPerChunk : ℕ) : Option (List ℤ × List ℤ × ℕ) × ℕ :=
  let r := retry_loop 3 initial blocks hdr
  if r.offsets.isEmpty then (none, r.parses)
  else
    let rows := min (r.offsets.length / numCols) rowsPerChunk
    (some (r.offsets.take (rows * numCols), r.lengths.take (rows * numCols), rows), r.parses)

/-! ## Chunk size computation (`process_table`, lines 468–480) -/

/-- Python `int.bit_length` via halving, with fuel `n` (enough for every
positive `n`). -/
def py_bit_length_aux : ℕ → ℕ → ℕ
  | 0, _ => 0
  | fuel + 1, n => if n = 0 then 0 else py_bit_length_aux fuel (n / 2) + 1

/-- Python `n.bit_length()`. -/
def py_bit_length (n : ℕ) : ℕ := py_bit_length_aux n n

/-- Embedding of the chunk-size computation in `process_table`: the source
sets `avg_row_size = total_size // len(columns)` (division by the number of
COLUMNS), multiplies by `rows_per_chunk`, clamps to [512 KiB, 2 MiB] and
rounds the in-range case up to the next power of two via
`1 << (base - 1).bit_length()`. -/
def compute_chunk_size (totalSize numColumns rowsPerChunk : ℕ) : ℕ :=
  let avgRowSize := totalSize / numColumns
  let base := avgRowSize * rowsPerChunk
  if base < 512 * 1024 then 512 * 1024
  else if 2 * 1024 * 1024 < base then 2 * 1024 * 1024
  else 1 <<< py_bit_length (base - 1)

/-- Modelled from the spec: the claimed sizing policy derives the window from
`rows_per_chunk × observed average row size` where the average row size is
the total byte size divided by the OBSERVED ROW COUNT, with the same clamping
and power-of-two rounding. Stated for comparison with `compute_chunk_size`. -/
def spec_chunk_size (totalSize rowCount rowsPerChunk : ℕ) : ℕ :=
  let avgRowSize := totalSize / rowCount
  let base := avgRowSize * rowsPerChunk
  if base < 512 * 1024 then 512 * 1024
  else if 2 * 1024 * 1024 < base then 2 * 1024 * 1024
  else 1 <<< py_bit_length (base - 1)

/-! ## Concrete windows used by the claims -/

/-- The single-row scenario stream: signature, zero flags, zero extension
length, a 2-field tuple holding big-endian int32 42 and the bytes of
`hello`, then the −1 trailer. -/
def c1_stream : List ℕ :=
  [80, 71, 67, 79, 80, 89, 10, 255, 13, 10, 0] ++
  [0, 0, 0, 0] ++ [0, 0, 0, 0] ++
  [0, 2] ++ [0, 0, 0, 4] ++ [0, 0, 0, 42] ++
  [0, 0, 0, 5] ++ [104, 101, 108, 108, 111] ++
  [255, 255]

/-- The text-trim scenario field bytes: two spaces, `pad`, two spaces, a zero
byte, then `garbage` (15 bytes). -/
def c6_field : List ℕ := [32, 32, 112, 97, 100, 32, 32, 0, 103, 97, 114, 98, 97, 103, 101]

/-! ## Claims -/

/-- C1: the spec's scenario expects the stream of one `(42, "hello")` row with
an [integer, text] layout to decode to column 0 = 42 and column 1 = "hello".
The code disagrees on column 1: the kernel writes the string arena bytes and
the packed string range at the GLOBAL column index (1), while the host
collection reads both buffers at the STRING-column index (0), a slot that is
never written and still holds its zero initialization, which the host maps to
the empty string. This theorem evaluates the embedded pipeline at that exact
input: one row, column 0 = 42, but column 1 = "" instead of "hello". -/
theorem c1_pipeline_drops_text :
    process_one_chunk [⟨"id", "integer", none⟩, ⟨"name", "text", none⟩] c1_stream true 4096 =
      .ok (some (1, [Sum.inl [42], Sum.inr [""]])) := by
  rfl

/-- C2: the claim says both 4-byte big-endian reads use two's-complement sign
interpretation and agree, e.g. bytes FF FF FF FF decode to −1. The
segmenter's read is indeed two's-complement and yields −1 there, but the
kernel's `decode_int32` computes `-(val & 0x7FFFFFFF)` and yields
−2147483647 on the same bytes, so the two reads disagree and the kernel read
is not two's-complement. -/
theorem c2_sign_reads_disagree :
    segmenter_field_length 255 255 255 255 = -1 ∧
      decode_int32 [255, 255, 255, 255] 0 = -2147483647 := by
  constructor <;> rfl

/-- C3 counterexample: a 2-column window whose second field declares length 9
with no bytes left produces a span array of length 1, which is not a multiple
of the 2 columns — the current row is NOT rolled back and a partial row is
emitted. -/
theorem c3_counterexample :
    ¬ (2 ∣ (parse_binary_chunk [0, 2, 0, 0, 0, 1, 65, 0, 0, 0, 9] false).1.length) := by
  decide

set_option maxHeartbeats 2000000 in
set_option maxRecDepth 100000 in
/-- C3 amended: whenever a field's declared non-negative length would run past
the end of the window, segmentation stops at that field but the spans already
recorded for the row's earlier fields stay in the output, so the span-array
length need not be a multiple of the column count. For any first-field data
byte `c`, the 2-column window whose second field overruns yields exactly the
first field's span `(6, 1)`. -/
theorem c3_amended_partial_row_kept :
    ∀ c < 256, parse_binary_chunk [0, 2, 0, 0, 0, 1, c, 0, 0, 0, 9] false = ([6], [1]) := by
  decide

/-- C4 counterexample: a first window that does not begin with the 11-byte
signature is NOT treated as a fatal framing error — `parse_binary_chunk` has
no error path at all — and rows ARE segmented from it: this 9-byte
signatureless window yields a one-field row span. -/
theorem c4_counterexample :
    parse_binary_chunk [0, 1, 0, 0, 0, 1, 42, 255, 255] true = ([6], [1]) := by
  rfl

/-- C6: for a variable-text column of width 16 whose field bytes are
`"  pad  \0garbage"`, the pipeline (device copy of `min(length, width)`
bytes, null-byte termination, both-ends trim of bytes ≤ 32, packed range
`start << 16 | end`, then host printable-ASCII filter, decode and strip)
yields exactly the string `"pad"`. -/
theorem c6_text_trim_scenario :
    process_one_chunk [⟨"c", "character varying", some 16⟩]
        ([0, 1] ++ [0, 0, 0, 15] ++ c6_field) false 4096 =
      .ok (some (1, [Sum.inr ["pad"]])) := by
  rfl

/-- C8: the claim derives the window from `rows_per_chunk × observed average
row size`. The code instead divides the total byte size by the number of
COLUMNS (`avg_row_size = total_size // len(columns)`), contradicting its own
comment. At total size 2,000,000 bytes with 2 columns, 10,000 observed rows
and 4096 rows per chunk, the code computes a 2 MiB window (cap hit because
its "average row size" is 1,000,000), while the claimed policy (average row
size 200) gives a 1 MiB window. -/
theorem c8_chunk_size_divergence :
    compute_chunk_size 2000000 2 4096 = 2097152 ∧
      spec_chunk_size 2000000 10000 4096 = 1048576 := by
  constructor <;> rfl

/-- C10: the kernel's integer decode is total: whenever reading 4 bytes at
`pos` would leave the array (negative position, or `pos + 4` past the
length), `decode_int32` returns 0 instead of reading out of bounds. -/
theorem c10_decode_int32_total (data : List ℕ) (pos : ℤ)
    (h : pos < 0 ∨ (data.length : ℤ) < pos + 4) :
    decode_int32 data pos = 0 := by
  have hb : check_bounds data pos 4 = false := by
    unfold check_bounds
    rcases h with h | h
    · have h0 : ¬ (0 ≤ pos) := by omega
      simp [h0]
    · have h0 : ¬ (pos + 4 ≤ (data.length : ℤ)) := by omega
      simp [h0]
  unfold decode_int32
  simp [hb]

/-- C10 witness: a negative position and a truncated read both decode to 0. -/
theorem c10_witness :
    decode_int32 [1, 2, 3] (-1) = 0 ∧ decode_int32 [1, 2, 3] 1 = 0 :=
  ⟨c10_decode_int32_total [1, 2, 3] (-1) (Or.inl (by decide)),
   c10_decode_int32_total [1, 2, 3] 1 (Or.inr (by decide))⟩

/-- Helper: the retry loop performs at most as many segmentation runs as it
has fuel. -/
theorem retry_loop_parses_le (f : ℕ) :
    ∀ (arr : List ℕ) (blocks : List (List ℕ)) (hdr : Bool),
      (retry_loop f arr blocks hdr).parses ≤ f := by
  induction f with
  | zero => intro arr blocks hdr; simp [retry_loop]
  | succ n ih =>
    intro arr blocks hdr
    cases blocks with
    | nil =>
      simp only [retry_loop]
      split <;> simp
    | cons blk rest =>
      have h := ih (arr ++ blk) rest false
      simp only [retry_loop]
      split
      · simp
      · split <;> simp <;> omega

/-- C9: the read-and-parse step concatenates additional read blocks and
retries segmentation at most `max_attempts = 3` times (the second component
counts segmentation runs), and when the final segmentation produced no spans
the chunk is treated as empty (`none`). The retry loop is structurally
bounded by that fixed budget, so the step terminates on every input. -/
theorem c9_bounded_retry (initial : List ℕ) (blocks : List (List ℕ)) (hdr : Bool)
    (numCols rowsPerChunk : ℕ) :
    (read_and_parse_chunk initial blocks hdr numCols rowsPerChunk).2 ≤ 3 ∧
      ((retry_loop 3 initial blocks hdr).offsets = [] →
        (read_and_parse_chunk initial blocks hdr numCols rowsPerChunk).1 = none) := by
  constructor
  · have h := retry_loop_parses_le 3 initial blocks hdr
    simp only [read_and_parse_chunk]
    split <;> simpa using h
  · intro h
    simp [read_and_parse_chunk, h]

/-- C9 witness: on an empty initial window with no upstream blocks, one
segmentation run happens (≤ 3) and the chunk is reported empty. -/
theorem c9_witness :
    (read_and_parse_chunk [] [] true 2 4096).2 ≤ 3 ∧
      (read_and_parse_chunk [] [] true 2 4096).1 = none :=
  ⟨(c9_bounded_retry [] [] true 2 4096).1,
   (c9_bounded_retry [] [] true 2 4096).2 (by rfl)⟩

/-- C4 amended: a first window that does not begin with the 11-byte signature
(or is shorter than the signature) is not rejected; the header branch is
skipped entirely and segmentation proceeds from offset 0 exactly as for a
non-first window. No error is raised and rows may be segmented from it. -/
theorem c4_amended_missing_signature_ignored (w : List ℕ)
    (h : w.length < 11 ∨ w.take 11 ≠ pgcopy_signature) :
    parse_binary_chunk w true = parse_binary_chunk w false := by
  have hfalse : parse_binary_chunk w false = parse_tuples w (w.length + 1) 0 [] [] := by
    unfold parse_binary_chunk
    simp
  have htrue : parse_binary_chunk w true = parse_tuples w (w.length + 1) 0 [] [] := by
    unfold parse_binary_chunk
    rcases h with h | h
    · rw [if_neg]
      rintro ⟨-, h2⟩
      omega
    · by_cases h2 : 11 ≤ w.length
      · rw [if_pos ⟨rfl, h2⟩, if_neg h]
      · rw [if_neg]
        rintro ⟨-, h3⟩
        exact h2 h3
  rw [htrue, hfalse]

/-- C4 amended witness: the 9-byte signatureless window parses identically
whether or not it is the first window. -/
theorem c4_amended_witness :
    parse_binary_chunk [0, 1, 0, 0, 0, 1, 42, 255, 255] true =
      parse_binary_chunk [0, 1, 0, 0, 0, 1, 42, 255, 255] false :=
  c4_amended_missing_signature_ignored _ (Or.inl (by decide))

/-- Helper: a cell worker only writes the numeric output and string-range
slots at its own index `col * chunkSize + row`; every other slot keeps its
previous value. -/
theorem decode_cell_untouched (raw : List ℕ) (offs lens types widths : List ℤ)
    (C N row col : ℕ) (b : KBuffers) (s : ℕ) (hs : s ≠ col * C + row) :
    (decode_cell raw offs lens types widths C N row col b).intOut s = b.intOut s ∧
      (decode_cell raw offs lens types widths C N row col b).strNull s = b.strNull s := by
  simp only [decode_cell]
  split_ifs <;> simp [Function.update_noteq hs]

/-- Helper: a NULL span in a numeric column makes the cell worker write 0
into its numeric output slot. -/
theorem decode_cell_null_int (raw : List ℕ) (offs lens types widths : List ℤ)
    (C N row col : ℕ) (b : KBuffers) (ht : types.getD col 0 ≤ 1)
    (hl : lens.getD (row * N + col) 0 = -1) :
    (decode_cell raw offs lens types widths C N row col b).intOut (col * C + row) = 0 := by
  simp only [List.getD_eq_getElem?_getD] at ht hl
  simp [decode_cell, ht, hl]

/-- Helper: a NULL span in a text column makes the cell worker write 0 into
its string-range slot. -/
theorem decode_cell_null_str (raw : List ℕ) (offs lens types widths : List ℤ)
    (C N row col : ℕ) (b : KBuffers) (ht : ¬ types.getD col 0 ≤ 1)
    (hl : lens.getD (row * N + col) 0 = -1) :
    (decode_cell raw offs lens types widths C N row col b).strNull (col * C + row) = 0 := by
  simp only [List.getD_eq_getElem?_getD] at ht hl
  simp [decode_cell, ht, hl]

/-- Helper: the column loop of one row worker leaves every slot that belongs
to none of its columns unchanged. -/
theorem decode_row_go_untouched (raw : List ℕ) (offs lens types widths : List ℤ)
    (C N row : ℕ) :
    ∀ (n j : ℕ) (b : KBuffers) (s : ℕ),
      (∀ k, j ≤ k → k < j + n → s ≠ k * C + row) →
      (decode_row_go raw offs lens types widths C N row n j b).intOut s = b.intOut s ∧
        (decode_row_go raw offs lens types widths C N row n j b).strNull s = b.strNull s := by
  intro n
  induction n with
  | zero => intro j b s _; exact ⟨rfl, rfl⟩
  | succ m ih =>
    intro j b s h
    unfold decode_row_go
    split
    · exact ⟨rfl, rfl⟩
    · have hcell := decode_cell_untouched raw offs lens types widths C N row j b s
        (h j le_rfl (by omega))
      have hrec := ih (j + 1) (decode_cell raw offs lens types widths C N row j b) s
        (fun k hk1 hk2 => h k (by omega) (by omega))
      exact ⟨hrec.1.trans hcell.1, hrec.2.trans hcell.2⟩

/-- Helper: within a row worker, once the target column's span is in range
and NULL, the numeric slot of that (row, column) cell ends up 0. -/
theorem decode_row_go_writes_int (raw : List ℕ) (offs lens types widths : List ℤ)
    (C N row col : ℕ) (hrow : row < C) (hcol : col < N)
    (hidx : row * N + col < offs.length)
    (ht : types.getD col 0 ≤ 1) (hl : lens.getD (row * N + col) 0 = -1) :
    ∀ (n j : ℕ), j + n = N → j ≤ col → ∀ b : KBuffers,
      (decode_row_go raw offs lens types widths C N row n j b).intOut (col * C + row) = 0 := by
  intro n
  induction n with
  | zero => intro j h1 h2 b; omega
  | succ m ih =>
    intro j h1 h2 b
    unfold decode_row_go
    rw [if_neg (by
      have hle : row * N + j ≤ row * N + col := by omega
      omega)]
    rcases Nat.eq_or_lt_of_le h2 with heq | hlt
    · subst heq
      have h0 := decode_cell_null_int raw offs lens types widths C N row j b ht hl
      have hC : 0 < C := lt_of_le_of_lt (Nat.zero_le row) hrow
      have hpres := decode_row_go_untouched raw offs lens types widths C N row m (j + 1)
        (decode_cell raw offs lens types widths C N row j b) (j * C + row)
        (fun k hk1 hk2 hne => by
          have hjk : j * C = k * C := by omega
          have := Nat.eq_of_mul_eq_mul_right hC hjk
          omega)
      exact hpres.1.trans h0
    · exact ih (j + 1) (by omega) (by omega) _

/-- Helper: within a row worker, once the target column's span is in range
and NULL, the string-range slot of that (row, column) cell ends up 0. -/
theorem decode_row_go_writes_str (raw : List ℕ) (offs lens types widths : List ℤ)
    (C N row col : ℕ) (hrow : row < C) (hcol : col < N)
    (hidx : row * N + col < offs.length)
    (ht : ¬ types.getD col 0 ≤ 1) (hl : lens.getD (row * N + col) 0 = -1) :
    ∀ (n j : ℕ), j + n = N → j ≤ col → ∀ b : KBuffers,
      (decode_row_go raw offs lens types widths C N row n j b).strNull (col * C + row) = 0 := by
  intro n
  induction n with
  | zero => intro j h1 h2 b; omega
  | succ m ih =>
    intro j h1 h2 b
    unfold decode_row_go
    rw [if_neg (by
      have hle : row * N + j ≤ row * N + col := by omega
      omega)]
    rcases Nat.eq_or_lt_of_le h2 with heq | hlt
    · subst heq
      have h0 := decode_cell_null_str raw offs lens types widths C N row j b ht hl
      have hC : 0 < C := lt_of_le_of_lt (Nat.zero_le row) hrow
      have hpres := decode_row_go_untouched raw offs lens types widths C N row m (j + 1)
        (decode_cell raw offs lens types widths C N row j b) (j * C + row)
        (fun k hk1 hk2 hne => by
          have hjk : j * C = k * C := by omega
          have := Nat.eq_of_mul_eq_mul_right hC hjk
          omega)
      exact hpres.2.trans h0
    · exact ih (j + 1) (by omega) (by omega) _

/-- Helper: two slots `col * C + row` and `k * C + r` with `row, r < C` can
only coincide when the rows coincide. -/
theorem row_of_slot_eq {C row r col k : ℕ} (hrow : row < C) (hr : r < C)
    (h : col * C + row = k * C + r) : row = r := by
  have h1 : (col * C + row) % C = row % C := by
    rw [Nat.mul_comm col C]
    exact Nat.mul_add_mod C col row
  have h2 : (k * C + r) % C = r % C := by
    rw [Nat.mul_comm k C]
    exact Nat.mul_add_mod C k r
  rw [h, h2] at h1
  rw [Nat.mod_eq_of_lt hr, Nat.mod_eq_of_lt hrow] at h1
  exact h1.symm

/-- Helper: a row worker for a different row never touches the target cell's
slots. -/
theorem decode_row_other_untouched (raw : List ℕ) (offs lens types widths : List ℤ)
    (C N row col r : ℕ) (hrow : row < C) (hr : r < C) (hne : r ≠ row) (b : KBuffers) :
    (decode_row_go raw offs lens types widths C N r N 0 b).intOut (col * C + row) =
        b.intOut (col * C + row) ∧
      (decode_row_go raw offs lens types widths C N r N 0 b).strNull (col * C + row) =
        b.strNull (col * C + row) := by
  apply decode_row_go_untouched
  intro k hk1 hk2 hne2
  exact hne (row_of_slot_eq hrow hr hne2).symm

/-- Helper: folding the kernel over rows other than the target row preserves
the target cell's slots. -/
theorem kernel_fold_untouched (raw : List ℕ) (offs lens types widths : List ℤ)
    (C N row col : ℕ) (hrow : row < C) :
    ∀ (l : List ℕ) (b : KBuffers), (∀ r ∈ l, r < C ∧ r ≠ row) →
      ((l.foldl (fun bb r => decode_row_go raw offs lens types widths C N r N 0 bb) b).intOut
            (col * C + row) = b.intOut (col * C + row) ∧
        (l.foldl (fun bb r => decode_row_go raw offs lens types widths C N r N 0 bb) b).strNull
            (col * C + row) = b.strNull (col * C + row)) := by
  intro l
  induction l with
  | nil => intro b _; exact ⟨rfl, rfl⟩
  | cons r rest ih =>
    intro b h
    obtain ⟨hrC, hrne⟩ := h r (List.mem_cons_self r rest)
    have hstep := decode_row_other_untouched raw offs lens types widths C N row col r hrow hrC hrne b
    have hrest := ih (decode_row_go raw offs lens types widths C N r N 0 b)
      (fun x hx => h x (List.mem_cons_of_mem r hx))
    exact ⟨hrest.1.trans hstep.1, hrest.2.trans hstep.2⟩

/-- Helper: folding the kernel over a duplicate-free row list containing the
target row writes 0 into the NULL numeric cell's slot. -/
theorem kernel_fold_writes_int (raw : List ℕ) (offs lens types widths : List ℤ)
    (C N row col : ℕ) (hrow : row < C) (hcol : col < N)
    (hidx : row * N + col < offs.length)
    (ht : types.getD col 0 ≤ 1) (hl : lens.getD (row * N + col) 0 = -1) :
    ∀ (l : List ℕ) (b : KBuffers), row ∈ l → (∀ r ∈ l, r < C) → l.Nodup →
      (l.foldl (fun bb r => decode_row_go raw offs lens types widths C N r N 0 bb) b).intOut
        (col * C + row) = 0 := by
  intro l
  induction l with
  | nil => intro b h; exact absurd h (List.not_mem_nil row)
  | cons r rest ih =>
    intro b hmem hall hnd
    rcases List.mem_cons.mp hmem with heq | hmem'
    · subst heq
      have h0 := decode_row_go_writes_int raw offs lens types widths C N row col hrow hcol
        hidx ht hl N 0 (by omega) (by omega) b
      have hnotin := (List.nodup_cons.mp hnd).1
      have hpres := kernel_fold_untouched raw offs lens types widths C N row col hrow rest
        (decode_row_go raw offs lens types widths C N row N 0 b)
        (fun x hx => ⟨hall x (List.mem_cons_of_mem _ hx), fun hx2 => hnotin (hx2 ▸ hx)⟩)
      exact hpres.1.trans h0
    · exact ih (decode_row_go raw offs lens types widths C N r N 0 b) hmem'
        (fun x hx => hall x (List.mem_cons_of_mem _ hx)) (List.nodup_cons.mp hnd).2

/-- Helper: same as `kernel_fold_writes_int` for the string-range index of a
NULL text cell. -/
theorem kernel_fold_writes_str (raw : List ℕ) (offs lens types widths : List ℤ)
    (C N row col : ℕ) (hrow : row < C) (hcol : col < N)
    (hidx : row * N + col < offs.length)
    (ht : ¬ types.getD col 0 ≤ 1) (hl : lens.getD (row * N + col) 0 = -1) :
    ∀ (l : List ℕ) (b : KBuffers), row ∈ l → (∀ r ∈ l, r < C) → l.Nodup →
      (l.foldl (fun bb r => decode_row_go raw offs lens types widths C N r N 0 bb) b).strNull
        (col * C + row) = 0 := by
  intro l
  induction l with
  | nil => intro b h; exact absurd h (List.not_mem_nil row)
  | cons r rest ih =>
    intro b hmem hall hnd
    rcases List.mem_cons.mp hmem with heq | hmem'
    · subst heq
      have h0 := decode_row_go_writes_str raw offs lens types widths C N row col hrow hcol
        hidx ht hl N 0 (by omega) (by omega) b
      have hnotin := (List.nodup_cons.mp hnd).1
      have hpres := kernel_fold_untouched raw offs lens types widths C N row col hrow rest
        (decode_row_go raw offs lens types widths C N row N 0 b)
        (fun x hx => ⟨hall x (List.mem_cons_of_mem _ hx), fun hx2 => hnotin (hx2 ▸ hx)⟩)
      exact hpres.2.trans h0
    · exact ih (decode_row_go raw offs lens types widths C N r N 0 b) hmem'
        (fun x hx => hall x (List.mem_cons_of_mem _ hx)) (List.nodup_cons.mp hnd).2

/-- Helper: the kernel writes 0 into the numeric output slot of every NULL
numeric cell whose span index is in range. -/
theorem kernel_null_int (raw : List ℕ) (offs lens types widths : List ℤ)
    (C N row col : ℕ) (b0 : KBuffers) (hrow : row < C) (hcol : col < N)
    (hidx : row * N + col < offs.length)
    (ht : types.getD col 0 ≤ 1) (hl : lens.getD (row * N + col) 0 = -1) :
    (decode_all_columns_kernel raw offs lens types widths C N b0).intOut (col * C + row) = 0 := by
  unfold decode_all_columns_kernel
  exact kernel_fold_writes_int raw offs lens types widths C N row col hrow hcol hidx ht hl
    (List.range C) b0 (List.mem_range.mpr hrow) (fun r hr => List.mem_range.mp hr)
    (List.nodup_range C)

/-- Helper: the kernel writes 0 into the string-range slot of every NULL text
cell whose span index is in range. -/
theorem kernel_null_str (raw : List ℕ) (offs lens types widths : List ℤ)
    (C N row col : ℕ) (b0 : KBuffers) (hrow : row < C) (hcol : col < N)
    (hidx : row * N + col < offs.length)
    (ht : ¬ types.getD col 0 ≤ 1) (hl : lens.getD (row * N + col) 0 = -1) :
    (decode_all_columns_kernel raw offs lens types widths C N b0).strNull (col * C + row) = 0 := by
  unfold decode_all_columns_kernel
  exact kernel_fold_writes_str raw offs lens types widths C N row col hrow hcol hidx ht hl
    (List.range C) b0 (List.mem_range.mpr hrow) (fun r hr => List.mem_range.mp hr)
    (List.nodup_range C)

set_option maxHeartbeats 2000000 in
set_option maxRecDepth 100000 in
/-- C5: NULL fields are handled without failure. (1) The segmenter, on a
3-field row whose middle field has length −1, records the span `(0, −1)` for
it, consumes no data bytes for it (the next field's offset is exactly 4 bytes
after the NULL length word), and records the other fields' spans normally,
for any field data bytes `a`, `98`, `99`. (2) For every input, the kernel
writes 0 into the numeric output slot of a NULL numeric cell, and (3) sets
the string-range index to 0 for a NULL text cell. (4) The full pipeline on an
(integer 42, NULL integer) row yields [42] and [0], and (5) on a single NULL
text column yields the empty string. -/
theorem c5_null_field_handling :
    (∀ a < 256, parse_binary_chunk
        [0, 3, 0, 0, 0, 2, a, 98, 255, 255, 255, 255, 0, 0, 0, 1, 99] false =
        ([6, 0, 16], [2, -1, 1])) ∧
    (∀ (raw : List ℕ) (offs lens types widths : List ℤ) (C N row col : ℕ) (b0 : KBuffers),
      row < C → col < N → row * N + col < offs.length →
      types.getD col 0 ≤ 1 → lens.getD (row * N + col) 0 = -1 →
      (decode_all_columns_kernel raw offs lens types widths C N b0).intOut (col * C + row) = 0) ∧
    (∀ (raw : List ℕ) (offs lens types widths : List ℤ) (C N row col : ℕ) (b0 : KBuffers),
      row < C → col < N → row * N + col < offs.length →
      1 < types.getD col 0 → lens.getD (row * N + col) 0 = -1 →
      (decode_all_columns_kernel raw offs lens types widths C N b0).strNull (col * C + row) = 0) ∧
    process_one_chunk [⟨"a", "integer", none⟩, ⟨"b", "integer", none⟩]
        ([0, 2] ++ [0, 0, 0, 4] ++ [0, 0, 0, 42] ++ [255, 255, 255, 255]) false 4096 =
      .ok (some (1, [Sum.inl [42], Sum.inl [0]])) ∧
    process_one_chunk [⟨"t", "text", none⟩] ([0, 1] ++ [255, 255, 255, 255]) false 4096 =
      .ok (some (1, [Sum.inr [""]])) := by
  refine ⟨by decide, ?_, ?_, by rfl, by rfl⟩
  · intro raw offs lens types widths C N row col b0 h1 h2 h3 h4 h5
    exact kernel_null_int raw offs lens types widths C N row col b0 h1 h2 h3 h4 h5
  · intro raw offs lens types widths C N row col b0 h1 h2 h3 h4 h5
    exact kernel_null_str raw offs lens types widths C N row col b0 h1 h2 h3 (by omega) h5

/-- C5 witness: the segmenter family at data bytes 97/98/99, and the kernel
NULL rules at a one-cell numeric layout and a one-cell text layout. -/
theorem c5_witness :
    parse_binary_chunk [0, 3, 0, 0, 0, 2, 97, 98, 255, 255, 255, 255, 0, 0, 0, 1, 99] false =
        ([6, 0, 16], [2, -1, 1]) ∧
      (decode_all_columns_kernel [] [0] [-1] [0] [4] 1 1 zero_buffers).intOut 0 = 0 ∧
      (decode_all_columns_kernel [] [0] [-1] [2] [16] 1 1 zero_buffers).strNull 0 = 0 :=
  ⟨c5_null_field_handling.1 97 (by decide),
   c5_null_field_handling.2.1 [] [0] [-1] [0] [4] 1 1 0 0 zero_buffers (by decide) (by decide)
     (by decide) (by decide) (by decide),
   c5_null_field_handling.2.2.1 [] [0] [-1] [2] [16] 1 1 0 0 zero_buffers (by decide) (by decide)
     (by decide) (by decide) (by decide)⟩

/-- C7: column layout resolution is a pure function of the type name and the
optional declared length: integer ↦ (FixedInt 0, width 4); numeric and
decimal ↦ (FixedNumeric 1, width 8); a name starting with `character` ↦
(VariableText 2, declared length, or 256 when unspecified); `text` ↦
(VariableText 2, width 1024); every other type name (including names that
merely start with `text`) resolves to the fatal unsupported-column-type
error. Declared character lengths are the positive
`character_maximum_length` values of the catalog. -/
theorem c7_layout_resolution :
    (∀ (nm : String) (l : Option ℕ), resolve_column ⟨nm, "integer", l⟩ = .ok (0, 4)) ∧
    (∀ (nm : String) (l : Option ℕ), resolve_column ⟨nm, "numeric", l⟩ = .ok (1, 8)) ∧
    (∀ (nm : String) (l : Option ℕ), resolve_column ⟨nm, "decimal", l⟩ = .ok (1, 8)) ∧
    (∀ (nm ty : String) (n : ℕ), str_starts_with ty "character" = true → 1 ≤ n →
      resolve_column ⟨nm, ty, some n⟩ = .ok (2, (n : ℤ))) ∧
    (∀ (nm ty : String), str_starts_with ty "character" = true →
      resolve_column ⟨nm, ty, none⟩ = .ok (2, 256)) ∧
    (∀ (nm : String) (l : Option ℕ), resolve_column ⟨nm, "text", l⟩ = .ok (2, 1024)) ∧
    (∀ (nm ty : String) (l : Option ℕ), ty ≠ "integer" → ty ≠ "numeric" → ty ≠ "decimal" →
      str_starts_with ty "character" = false → ty ≠ "text" →
      resolve_column ⟨nm, ty, l⟩ = .error ("Unsupported column type: " ++ ty)) := by
  refine ⟨fun nm l => rfl, fun nm l => rfl, fun nm l => rfl, ?_, ?_, fun nm l => rfl, ?_⟩
  · intro nm ty n hch hn
    have h1 : ty ≠ "integer" := fun h => absurd (h ▸ hch) (by decide)
    have h2 : ty ≠ "numeric" := fun h => absurd (h ▸ hch) (by decide)
    have h3 : ty ≠ "decimal" := fun h => absurd (h ▸ hch) (by decide)
    have hn0 : n ≠ 0 := by omega
    simp [resolve_column, get_column_type, get_column_length, Except.bind, h1, h2, h3, hch, hn0]
    rfl
  · intro nm ty hch
    have h1 : ty ≠ "integer" := fun h => absurd (h ▸ hch) (by decide)
    have h2 : ty ≠ "numeric" := fun h => absurd (h ▸ hch) (by decide)
    have h3 : ty ≠ "decimal" := fun h => absurd (h ▸ hch) (by decide)
    simp [resolve_column, get_column_type, get_column_length, Except.bind, h1, h2, h3, hch]
    rfl
  · intro nm ty l h1 h2 h3 h4 h5
    by_cases h6 : str_starts_with ty "text" = true
    · simp [resolve_column, get_column_type, get_column_length, Except.bind, h1, h2, h3, h4, h5, h6]
      rfl
    · simp only [Bool.not_eq_true] at h6
      simp [resolve_column, get_column_type, get_column_length, Except.bind, Except.map, h1, h2, h3, h4, h6]
      rfl

/-- C7 witness: a sized character column resolves to the variable-text tag
with its declared width, and an unsupported type name resolves to the fatal
error. -/
theorem c7_witness :
    resolve_column ⟨"c1", "character varying", some 16⟩ = .ok (2, 16) ∧
      resolve_column ⟨"c2", "date", none⟩ = .error ("Unsupported column type: " ++ "date") :=
  ⟨c7_layout_resolution.2.2.2.1 "c1" "character varying" 16 (by decide) (by decide),
   c7_layout_resolution.2.2.2.2.2.2 "c2" "date" none (by decide) (by decide) (by decide)
     (by decide) (by decide)⟩

/-- C3 amended witness: the partial-row family at data byte 65. -/
theorem c3_amended_witness :
    parse_binary_chunk [0, 2, 0, 0, 0, 1, 65, 0, 0, 0, 9] false = ([6], [1]) :=
  c3_amended_partial_row_kept 65 (by decide)
